import Mathlib

/-!
Shallow embedding of the analytical data pipeline of the EchoAI dashboard
(React/TypeScript).  The definitions below are translated from the source
components `DetailedReviews.tsx`, `ClustersAnalysis.tsx`,
`NewOverviewPanel.tsx`, `OverviewPanel.tsx` and the unnamed source parts
(`part_000`, `part_001`, `part_003`).  JavaScript-level behaviour
(string sorting, `Array.prototype.sort` with a comparator, `parseInt`,
`Number`, `Date` construction and formatting, object insertion order) is
modelled explicitly; each modelling decision is recorded in a comment at
the definition it concerns.
-/

open scoped List

namespace Echo

/-! ## JavaScript string ordering

JS compares strings by UTF-16 code units (`<`, `>`, and the default
`Array.prototype.sort()` comparison).  For characters of the Basic
Multilingual Plane this agrees with comparison of Unicode code points,
which is what we model; all strings appearing in the claims are ASCII. -/

/-- Lexicographic order on char lists by code point. -/
def charListLe : List Char → List Char → Bool
  | [], _ => true
  | _ :: _, [] => false
  | a :: as, b :: bs =>
    if a.val < b.val then true
    else if b.val < a.val then false
    else charListLe as bs

/-- Model of JS `s <= t` on strings (and of the default `sort()` order). -/
def jsStringLe (s t : String) : Bool := charListLe s.data t.data

/-- Model of JS `s < t` on strings. -/
def jsStringLt (s t : String) : Bool := jsStringLe s t && !(jsStringLe t s)

/-! ## Stable sorting

`Array.prototype.sort` is required to be stable (ECMAScript 2019+), and
`SortCompare` coerces a `NaN` comparator result to `+0`, i.e. treats the
pair as equal.  We model the sort as a stable insertion sort: an element
is inserted after every element it need not precede, so equal elements
keep their original relative order.  (Structural recursion is used
throughout so that concrete inputs evaluate inside `decide`.) -/

/-- Insert `x` after every element `y` with `le y x`. -/
def insertStable (le : α → α → Bool) (x : α) : List α → List α
  | [] => [x]
  | y :: ys => if le y x then y :: insertStable le x ys else x :: y :: ys

/-- Stable sort: insert elements left to right. -/
def stableSort (le : α → α → Bool) (l : List α) : List α :=
  l.foldl (fun acc x => insertStable le x acc) []

/-- Stable sort by a JS comparator; the comparator returns `Option Int`
with `none` modelling `NaN` (coerced to `0` by `SortCompare`).  `a` is
kept before `b` exactly when the coerced comparator value is `≤ 0`. -/
def jsSortBy (cmp : α → α → Option Int) (l : List α) : List α :=
  stableSort (fun a b => (cmp a b).getD 0 ≤ 0) l

/-- Model of `[...new Set(xs)]`: deduplicate keeping first occurrences. -/
def jsSetDedup (l : List String) : List String := go l []
where
  go : List String → List String → List String
    | [], _ => []
    | x :: xs, seen => if x ∈ seen then go xs seen else x :: go xs (x :: seen)

/-- Model of `[...new Set(xs)].filter(Boolean).sort()` on string arrays:
deduplicate, drop empty strings (the only falsy strings), and sort
lexicographically. -/
def uniqueSorted (xs : List String) : List String :=
  stableSort jsStringLe ((jsSetDedup xs).filter (fun s => s ≠ ""))

/-! ## JS numeric parsing -/

/-- Numeric value of a decimal digit list. -/
def digitsVal (cs : List Char) : Nat :=
  cs.foldl (fun a c => 10 * a + (c.toNat - 48)) 0

/-- Model of JS `parseInt(s)` restricted to the inputs the pipeline
produces: the leading run of decimal digits is parsed; `none` models the
`NaN` result when there is no leading digit.  (Signs, whitespace and
non-decimal radixes never occur in the fields handled here and are not
modelled.) -/
def parseDigits (s : String) : Option Nat :=
  let ds := s.data.takeWhile (fun c => c.isDigit)
  if ds.isEmpty then none else some (digitsVal ds)

/-- Model of JS `Number(s)` (used by `split('/').map(Number)`),
restricted to the shapes occurring here: the empty string converts to
`0`, a pure digit string to its value, anything else — including the
`undefined` obtained by destructuring a missing array element, passed
here as `none` — to `NaN`, modelled as `none`. -/
def jsNumber : Option String → Option Int
  | none => none
  | some s =>
    if s = "" then some 0
    else if s.data.all (fun c => c.isDigit) then some (digitsVal s.data : Int)
    else none

/-- Model of `String.prototype.split(sep)` for a one-character separator
(agrees with JS: `"" → [""]`, adjacent separators produce empty parts). -/
def splitOnChar (sep : Char) : List Char → List (List Char)
  | [] => [[]]
  | c :: cs =>
    if c = sep then [] :: splitOnChar sep cs
    else
      match splitOnChar sep cs with
      | r :: rs => (c :: r) :: rs
      | [] => [[c]]

/-- `s.split(sep)` on strings. -/
def jsSplit (s : String) (sep : Char) : List String :=
  (splitOnChar sep s.data).map (fun cs => ⟨cs⟩)

/-- Model of `haystack.includes(needle)` (substring test). -/
def jsIncludes (hay needle : String) : Bool :=
  hay.data.tails.any (fun t => needle.data.isPrefixOf t)

/-! ## Insertion-ordered tallying

`Map` keys and plain-object string keys (none of the keys built here are
array-index strings) enumerate in insertion order, so
`Object.entries`/`Map.entries` after a tallying loop lists keys in order
of first occurrence. -/

/-- Add 1 to the tally of `k`, appending `k` if absent. -/
def bump (k : String) : List (String × Nat) → List (String × Nat)
  | [] => [(k, 1)]
  | (k', v) :: rest =>
    if k' = k then (k', v + 1) :: rest else (k', v) :: bump k rest

/-- Tally of first-occurrence-ordered keys of `l` under `key`. -/
def tally (key : α → String) (l : List α) : List (String × Nat) :=
  l.foldl (fun acc a => bump (key a) acc) []

/-! ## Calendar model

JS `Date` values built by this code always sit at local midnight, so a
valid date is modelled by its day number (days since 1970-01-01);
`getTime` comparisons between such dates order exactly like the day
numbers.  Civil-calendar conversions use the standard
proleptic-Gregorian day-counting algorithm. -/

/-- Days from civil date (y, m, d), month 1–12, to days since epoch. -/
def daysFromCivil (y m d : Int) : Int :=
  let y' := if m ≤ 2 then y - 1 else y
  let era := Int.fdiv y' 400
  let yoe := y' - era * 400
  let mShift := if 2 < m then m - 3 else m + 9
  let doy := Int.fdiv (153 * mShift + 2) 5 + d - 1
  let doe := yoe * 365 + Int.fdiv yoe 4 - Int.fdiv yoe 100 + doy
  era * 146097 + doe - 719468

/-- Inverse of `daysFromCivil`: civil (y, m, d) of a day number. -/
def civilFromDays (z : Int) : Int × Int × Int :=
  let z' := z + 719468
  let era := Int.fdiv z' 146097
  let doe := z' - era * 146097
  let yoe := Int.fdiv (doe - Int.fdiv doe 1460 + Int.fdiv doe 36524 - Int.fdiv doe 146096) 365
  let y := yoe + era * 400
  let doy := doe - (365 * yoe + Int.fdiv yoe 4 - Int.fdiv yoe 100)
  let mp := Int.fdiv (5 * doy + 2) 153
  let d := doy - Int.fdiv (153 * mp + 2) 5 + 1
  let m := if mp < 10 then mp + 3 else mp - 9
  (if m ≤ 2 then y + 1 else y, m, d)

/-- Model of `new Date(year, monthIndex, day)` for numeric arguments:
JS normalises out-of-range month indices and days by linear carrying,
which the day-number arithmetic below reproduces. -/
def epochOfYMD (y mIdx d : Int) : Int :=
  let months := y * 12 + mIdx
  daysFromCivil (Int.fdiv months 12) (Int.emod months 12 + 1) 1 + d - 1

/-- JS `Date.prototype.getDay` (0 = Sunday): 1970-01-01 was a Thursday. -/
def dayOfWeek (epochDay : Int) : Int := Int.emod (epochDay + 4) 7

/-- A JS `Date` object as produced by this pipeline: either an Invalid
Date (some constructor argument was `NaN`) or a valid date at local
midnight. -/
inductive JsDate where
  | invalid
  | valid (epochDay : Int)
deriving DecidableEq

/-- `new Date(y, mIdx, d)` on possibly-`NaN` (`none`) components. -/
def mkJsDate : Option Int → Option Int → Option Int → JsDate
  | some y, some mIdx, some d => .valid (epochOfYMD y mIdx d)
  | _, _, _ => .invalid

/-- JS `a <= b` on `Date` objects (comparison of time values; any
comparison involving an Invalid Date's `NaN` time value is false). -/
def jsDateLe : JsDate → JsDate → Bool
  | .valid a, .valid b => a ≤ b
  | _, _ => false

/-- JS `a > b` on `Date` objects (false when either side is invalid). -/
def jsDateGt : JsDate → JsDate → Bool
  | .valid a, .valid b => b < a
  | _, _ => false

def weekdayShortNames : List String :=
  ["Sun", "Mon", "Tue", "Wed", "Thu", "Fri", "Sat"]

def monthShortNames : List String :=
  ["Jan", "Feb", "Mar", "Apr", "May", "Jun",
   "Jul", "Aug", "Sep", "Oct", "Nov", "Dec"]

/-- Two-digit zero padding, as used by `toDateString` day fields and the
`date-fns` `dd`/`MM` tokens. -/
def pad2 (n : Int) : String :=
  if n < 10 ∧ 0 ≤ n then "0" ++ toString n else toString n

/-- Last two characters of a string (`.slice(-2)` on a string of length
at least 2, and the `yy` token of `date-fns`). -/
def last2 (s : String) : String := ⟨s.data.drop (s.data.length - 2)⟩

/-- JS `Date.prototype.toDateString` ("Www Mmm DD YYYY") for valid dates
with four-digit years (the only ones the claims evaluate it at); an
Invalid Date stringifies to "Invalid Date". -/
def toDateString : JsDate → String
  | .invalid => "Invalid Date"
  | .valid e =>
    let (y, m, d) := civilFromDays e
    (weekdayShortNames.getD (dayOfWeek e).toNat "") ++ " " ++
      (monthShortNames.getD (m - 1).toNat "") ++ " " ++ pad2 d ++ " " ++ toString y

/-- `date-fns` `format(date, 'dd/MM/yy')`. -/
def fmtDDMMYY (e : Int) : String :=
  let (y, m, d) := civilFromDays e
  pad2 d ++ "/" ++ pad2 m ++ "/" ++ last2 (toString y)

/-- `date-fns` `format(date, 'MMM yyyy')`, and equally the
`date.toLocaleString('default', {month:'short'}) + ' ' + getFullYear()`
monthly bucket label (English locale assumed). -/
def fmtMMMYYYY (e : Int) : String :=
  let (y, m, _) := civilFromDays e
  (monthShortNames.getD (m - 1).toNat "") ++ " " ++ toString y

/-- `date-fns` `startOfWeek` (week starts on Sunday), and equally the
`weekStart.setDate(date.getDate() - date.getDay())` computation of the
source: move back to the preceding Sunday. -/
def startOfWeek (e : Int) : Int := e - dayOfWeek e

/-- `date-fns` `startOfMonth`. -/
def startOfMonth (e : Int) : Int :=
  let (_, _, d) := civilFromDays e
  e - (d - 1)

/-- `startOfWeek` lifted to `Date` objects (invalid stays invalid). -/
def startOfWeekJs : JsDate → JsDate
  | .invalid => .invalid
  | .valid e => .valid (startOfWeek e)

/-- `startOfMonth` lifted to `Date` objects (invalid stays invalid). -/
def startOfMonthJs : JsDate → JsDate
  | .invalid => .invalid
  | .valid e => .valid (startOfMonth e)

/-- Model of `new Date(string).getTime()` restricted to the strings this
pipeline feeds it (the bucket labels it itself generates): the
`toDateString` shape "Www Mmm DD YYYY" parses to the corresponding
midnight (the ECMAScript specification requires `toDateString` output to
round-trip through the `Date` constructor), the "Mmm YYYY" shape parses
to the first of the month (observed V8/SpiderMonkey leniency), and every
other label — in particular the weekly "Week of Www Mmm DD YYYY" labels
— yields an Invalid Date, i.e. a `NaN` time value, modelled as `none`. -/
def jsDateParse (s : String) : Option Int :=
  match jsSplit s ' ' with
  | [w, mo, dd, yyyy] =>
    if w ∈ weekdayShortNames then
      match monthShortNames.indexOf? mo, parseDigits dd, parseDigits yyyy with
      | some mi, some d, some y =>
        if dd.data.all (fun c => c.isDigit) ∧ yyyy.data.all (fun c => c.isDigit) then
          some (daysFromCivil (y : Int) ((mi : Int) + 1) (d : Int))
        else none
      | _, _, _ => none
    else none
  | [mo, yyyy] =>
    match monthShortNames.indexOf? mo, parseDigits yyyy with
    | some mi, some y =>
      if yyyy.data.all (fun c => c.isDigit) then
        some (daysFromCivil (y : Int) ((mi : Int) + 1) 1)
      else none
    | _, _ => none
  | _ => none

/-! ## The record model

`ReviewData` is the extended record shape (interface `ReviewData` of
`QSRDashboard.tsx` / `NewOverviewPanel.tsx`); field names follow the
column headers, including the source's misspelling "Area Manger Name".
All fields are modelled as the strings found in the spreadsheet cells;
the `S.No` column (typed `number` in the interface but never used by any
derivation below) is kept as cell text. -/

structure ReviewData where
  sno : String
  storeName : String
  region : String
  date : String
  remark : String
  subject : String
  aggregator : String
  month : String
  areaManagerName : String
  llmClusterLabel : String
  llmMetaLabel : String
deriving DecidableEq

instance : Inhabited ReviewData :=
  ⟨⟨"", "", "", "", "", "", "", "", "", "", ""⟩⟩

/-- The minimal record shape of `part_001` and `OverviewPanel.tsx`
(`City, Reviews, LLM_Cluster_Label, LLM_Meta_Label`). -/
structure Review01 where
  city : String
  reviews : String
  llmClusterLabel : String
  llmMetaLabel : String
deriving DecidableEq

/-- The six dimension selections of `DetailedReviews` (each either
`"all"` or a specific value); the free-text search term is passed
separately, as in the source it is a separate piece of state. -/
structure FilterState6 where
  selectedRegion : String
  selectedAreaManager : String
  selectedStore : String
  selectedAggregator : String
  selectedMetaCluster : String
  selectedSubject : String
deriving DecidableEq

/-- The four dimension selections of `NewOverviewPanel`,
`ClustersAnalysis` and the regional panel of `part_003`. -/
structure FilterState4 where
  selectedRegion : String
  selectedAreaManager : String
  selectedStore : String
  selectedAggregator : String
deriving DecidableEq

/-- The all-`"all"` four-dimension state (initial state in the source). -/
def allState4 : FilterState4 := ⟨"all", "all", "all", "all"⟩

/-- The all-`"all"` six-dimension state (initial state in the source). -/
def allState6 : FilterState6 := ⟨"all", "all", "all", "all", "all", "all"⟩

/-- The six-dimension filter body shared by `filterOptions` and
`processedData` of `DetailedReviews` (a sequence of
`if (sel !== 'all' && item.F !== sel) return false` checks). -/
def passDims6 (st : FilterState6) (item : ReviewData) : Bool :=
  (st.selectedRegion == "all" || item.region == st.selectedRegion) &&
  (st.selectedAreaManager == "all" || item.areaManagerName == st.selectedAreaManager) &&
  (st.selectedStore == "all" || item.storeName == st.selectedStore) &&
  (st.selectedAggregator == "all" || item.aggregator == st.selectedAggregator) &&
  (st.selectedMetaCluster == "all" || item.llmMetaLabel == st.selectedMetaCluster) &&
  (st.selectedSubject == "all" || item.subject == st.selectedSubject)

/-- The four-dimension filter body shared by `filterOptions` and
`processedData` of `NewOverviewPanel`/`ClustersAnalysis`/`part_003`. -/
def passDims4 (st : FilterState4) (item : ReviewData) : Bool :=
  (st.selectedRegion == "all" || item.region == st.selectedRegion) &&
  (st.selectedAreaManager == "all" || item.areaManagerName == st.selectedAreaManager) &&
  (st.selectedStore == "all" || item.storeName == st.selectedStore) &&
  (st.selectedAggregator == "all" || item.aggregator == st.selectedAggregator)

/-- Period granularity (`PeriodType` in the source). -/
inductive PeriodType where
  | daily
  | weekly
  | monthly
deriving DecidableEq

end Echo

namespace Echo.DR

/-! ## DetailedReviews.tsx — the review browser -/

/-- The `parsedDate` IIFE of `DetailedReviews.processedData` (the same
code appears in `ClustersAnalysis.tsx` and `part_003`): split `Date` on
`'/'`; if any of the first three parts is missing or empty (JS-falsy),
return `null` (`none`); otherwise resolve a two-digit year with the
`< 50 → 2000+y, ≥ 50 → 1900+y` rule, use any other year as parsed, and
build `new Date(fullYear, parseInt(month) - 1, parseInt(day))` (a
non-numeric part makes that date invalid, not `null`). -/
def parsedDate (s : String) : Option JsDate :=
  let parts := jsSplit s '/'
  let day := (parts[0]?).getD ""
  let month := (parts[1]?).getD ""
  let year := (parts[2]?).getD ""
  if day = "" ∨ month = "" ∨ year = "" then none
  else
    let fullYear : Option Int :=
      if year.length = 2 then
        (parseDigits year).map (fun y => if (y : Int) < 50 then 2000 + y else 1900 + y)
      else (parseDigits year).map (fun y => (y : Int))
    some (mkJsDate fullYear ((parseDigits month).map (fun m => (m : Int) - 1))
      ((parseDigits day).map (fun d => (d : Int))))

/-- A record of `DetailedReviews.processedData`: the raw record plus its
`parsedDate`. -/
structure Derived extends ReviewData where
  parsedDate : Option JsDate
deriving DecidableEq

instance : Inhabited Derived := ⟨⟨default, none⟩⟩

/-- Sortable fields (`SortField` in the source). -/
inductive SortField where
  | date
  | region
  | store
  | metaCluster
  | subject
deriving DecidableEq

/-- Sort direction (`SortOrder` in the source). -/
inductive SortOrder where
  | asc
  | desc
deriving DecidableEq

/-- `a.parsedDate?.getTime() || 0`: the time value of a valid date, `0`
for `null` (optional chaining gives `undefined`) or an Invalid Date
(`NaN`); `|| 0` maps the falsy values `undefined`, `NaN` and `0` to `0`
and keeps every other number. -/
def timeVal : Option JsDate → Int
  | some (.valid e) => e
  | _ => 0

/-- The comparator body of `DetailedReviews.processedData`'s sort:
select `aVal`/`bVal` by the sort field, then
`asc ? (a<b ? -1 : a>b ? 1 : 0) : (a>b ? -1 : a<b ? 1 : 0)`. -/
def comparator (sf : SortField) (so : SortOrder) (a b : Derived) : Option Int :=
  let cmpInt : Int → Int → Int := fun x y =>
    match so with
    | .asc => if x < y then -1 else if y < x then 1 else 0
    | .desc => if y < x then -1 else if x < y then 1 else 0
  let cmpStr : String → String → Int := fun x y =>
    match so with
    | .asc => if jsStringLt x y then -1 else if jsStringLt y x then 1 else 0
    | .desc => if jsStringLt y x then -1 else if jsStringLt x y then 1 else 0
  match sf with
  | .date => some (cmpInt (timeVal a.parsedDate) (timeVal b.parsedDate))
  | .region => some (cmpStr a.region b.region)
  | .store => some (cmpStr a.storeName b.storeName)
  | .metaCluster => some (cmpStr a.llmMetaLabel b.llmMetaLabel)
  | .subject => some (cmpStr a.subject b.subject)

/-- `DetailedReviews.processedData`: attach `parsedDate`, drop records
with a `null` parsedDate, apply the six dimension filters and the
case-insensitive remark search, then sort with the field comparator.
(`searchTerm` empty is falsy, so no search filter applies; `toLower` is
the ASCII lowering JS performs on these strings.) -/
def processedData (data : List ReviewData) (st : FilterState6) (searchTerm : String)
    (sf : SortField) (so : SortOrder) : List Derived :=
  let filtered := (data.map (fun item => Derived.mk item (parsedDate item.date))).filter
    (fun item =>
      item.parsedDate.isSome &&
      passDims6 st item.toReviewData &&
      (searchTerm == "" || jsIncludes item.remark.toLower searchTerm.toLower))
  jsSortBy (comparator sf so) filtered

/-- The option lists computed by `DetailedReviews.filterOptions`. -/
structure Options6 where
  regions : List String
  areaManagers : List String
  stores : List String
  aggregators : List String
  metaClusters : List String
  subjects : List String
deriving DecidableEq

/-- `DetailedReviews.filterOptions`: `filteredData` applies all six
currently selected dimension filters; each option list is then drawn
from `filteredData` re-filtered by the dimensions preceding it in the
cascade (regions come from the unfiltered data), deduplicated, with
blanks dropped, and sorted. -/
def filterOptions (data : List ReviewData) (st : FilterState6) : Options6 :=
  let filteredData := data.filter (passDims6 st)
  { regions := uniqueSorted (data.map (·.region))
    areaManagers := uniqueSorted ((filteredData.filter (fun d =>
        st.selectedRegion == "all" || d.region == st.selectedRegion)).map (·.areaManagerName))
    stores := uniqueSorted ((filteredData.filter (fun d =>
        (st.selectedRegion == "all" || d.region == st.selectedRegion) &&
        (st.selectedAreaManager == "all" || d.areaManagerName == st.selectedAreaManager))).map
        (·.storeName))
    aggregators := uniqueSorted ((filteredData.filter (fun d =>
        (st.selectedRegion == "all" || d.region == st.selectedRegion) &&
        (st.selectedAreaManager == "all" || d.areaManagerName == st.selectedAreaManager) &&
        (st.selectedStore == "all" || d.storeName == st.selectedStore))).map (·.aggregator))
    metaClusters := uniqueSorted ((filteredData.filter (fun d =>
        (st.selectedRegion == "all" || d.region == st.selectedRegion) &&
        (st.selectedAreaManager == "all" || d.areaManagerName == st.selectedAreaManager) &&
        (st.selectedStore == "all" || d.storeName == st.selectedStore) &&
        (st.selectedAggregator == "all" || d.aggregator == st.selectedAggregator))).map
        (·.llmMetaLabel))
    subjects := uniqueSorted ((filteredData.filter (fun d =>
        (st.selectedRegion == "all" || d.region == st.selectedRegion) &&
        (st.selectedAreaManager == "all" || d.areaManagerName == st.selectedAreaManager) &&
        (st.selectedStore == "all" || d.storeName == st.selectedStore) &&
        (st.selectedAggregator == "all" || d.aggregator == st.selectedAggregator) &&
        (st.selectedMetaCluster == "all" || d.llmMetaLabel == st.selectedMetaCluster))).map
        (·.subject)) }

/-- `paginatedData`: `processedData.slice(startIndex, startIndex + rowsPerPage)`
with `startIndex = (currentPage - 1) * rowsPerPage`. -/
def paginatedData (l : List Derived) (currentPage rowsPerPage : Nat) : List Derived :=
  (l.drop ((currentPage - 1) * rowsPerPage)).take rowsPerPage

/-- `totalPages = Math.ceil(processedData.length / rowsPerPage)`,
computed over exact rationals (the float division is exact for every
realistic list length and page size). -/
def totalPages (l : List Derived) (rowsPerPage : Nat) : Nat :=
  Nat.ceil ((l.length : ℚ) / (rowsPerPage : ℚ))

end Echo.DR

namespace Echo.CA

/-! ## ClustersAnalysis.tsx and the regional panel of part_003

The two components share their `parsedDate`/`financialYear` derivation
and their `processedData` filter verbatim; they are embedded once here.
`parsedDate` is the same IIFE as in `DetailedReviews` (`DR.parsedDate`). -/

/-- The body of the `financialYear` IIFE after splitting `Date` on `'/'`:
empty/missing parts give `''`; otherwise the two-digit-year rule is
applied, and the label is
`` `FY${fullYear}-${(fullYear+1).toString().slice(-2)}` `` when
`parseInt(month) >= 4` (false for a `NaN` month) and
`` `FY${fullYear-1}-${fullYear.toString().slice(-2)}` `` otherwise.
A year whose `parseInt` is `NaN` makes the label contain `NaN`; that
JS string is modelled as `none` (no claim evaluates it). -/
def financialYearParts (day month year : String) : Option String :=
  if day = "" ∨ month = "" ∨ year = "" then some ""
  else
    let fullYear : Option Int :=
      if year.length = 2 then
        (parseDigits year).map (fun y => if (y : Int) < 50 then 2000 + y else 1900 + y)
      else (parseDigits year).map (fun y => (y : Int))
    match fullYear with
    | none => none
    | some fy =>
      let ge4 : Bool := match parseDigits month with | some m => 4 ≤ m | none => false
      some (if ge4 then
          "FY" ++ toString fy ++ "-" ++ last2 (toString (fy + 1))
        else
          "FY" ++ toString (fy - 1) ++ "-" ++ last2 (toString fy))

/-- The `financialYear` IIFE of `ClustersAnalysis.processedData` (and,
identically, of `part_003`): split `Date` on `'/'` and apply
`financialYearParts` to the first three parts. -/
def financialYear (s : String) : Option String :=
  let parts := jsSplit s '/'
  financialYearParts ((parts[0]?).getD "") ((parts[1]?).getD "") ((parts[2]?).getD "")

/-- A record of `ClustersAnalysis.processedData` (= `part_003`'s): the
raw record plus `parsedDate` and `financialYear`. -/
structure Derived extends ReviewData where
  parsedDate : Option JsDate
  financialYear : Option String
deriving DecidableEq

instance : Inhabited Derived := ⟨⟨default, none, some ""⟩⟩

/-- `ClustersAnalysis.processedData` (identical in `part_003`): attach
the derived fields, drop records whose `parsedDate` is `null`, apply the
four dimension filters. -/
def processedData (data : List ReviewData) (st : FilterState4) : List Derived :=
  (data.map (fun item => Derived.mk item (DR.parsedDate item.date) (financialYear item.date))).filter
    (fun item => item.parsedDate.isSome && passDims4 st item.toReviewData)

/-- The `timeKey` switch shared by `ClustersAnalysis.clusterTrendsData`
and `part_003`'s `timeSeriesData`: `daily` → `date.toDateString()`,
`weekly` → `` `Week of ${weekStart.toDateString()}` `` with `weekStart`
moved back to the preceding Sunday, `monthly` →
`` `${date.toLocaleString('default',{month:'short'})} ${date.getFullYear()}` ``
(on an Invalid Date, `toLocaleString` yields "Invalid Date" and
`getFullYear()` yields `NaN`, so the monthly label is
"Invalid Date NaN"). -/
def timeKey (p : PeriodType) (d : JsDate) : String :=
  match p with
  | .daily => toDateString d
  | .weekly => "Week of " ++ toDateString (startOfWeekJs d)
  | .monthly =>
    match d with
    | .invalid => "Invalid Date NaN"
    | .valid e => fmtMMMYYYY e

/-- The comparator `new Date(a.period).getTime() - new Date(b.period).getTime()`
used to sort bucket arrays by re-parsing their labels (`none` = `NaN`,
produced whenever either label fails to parse as a date). -/
def labelCmp (a b : String) : Option Int :=
  match jsDateParse a, jsDateParse b with
  | some x, some y => some (x - y)
  | _, _ => none

/-- One row of `clusterTrendsData`: the period label, the per-meta-cluster
counts (spread into the object, modelled as an association list in
insertion order) and their total. -/
structure TrendEntry where
  period : String
  clusters : List (String × Nat)
  total : Nat
deriving DecidableEq

/-- Nested insertion-ordered tallying `acc[timeKey][cluster] += 1`. -/
def bumpNested (tk ck : String) :
    List (String × List (String × Nat)) → List (String × List (String × Nat))
  | [] => [(tk, [(ck, 1)])]
  | (k, cs) :: rest =>
    if k = tk then (k, bump ck cs) :: rest else (k, cs) :: bumpNested tk ck rest

/-- `ClustersAnalysis.clusterTrendsData` before the final `.slice(-12)`:
group by `timeKey` and meta cluster (`item.LLM_Meta_Label || 'Unknown'`;
`item.parsedDate!` is non-null for every record `processedData`
produces, so the `.getD .invalid` default is unreachable), build the
entries with totals, and sort by re-parsing the period labels. -/
def clusterTrendsFull (pd : List Derived) (p : PeriodType) : List TrendEntry :=
  let trends := pd.foldl (fun acc item =>
    bumpNested (timeKey p (item.parsedDate.getD .invalid))
      (if item.llmMetaLabel = "" then "Unknown" else item.llmMetaLabel) acc) []
  jsSortBy (fun a b => labelCmp a.period b.period)
    (trends.map (fun kv => TrendEntry.mk kv.1 kv.2 (kv.2.foldl (fun s c => s + c.2) 0)))

/-- `ClustersAnalysis.clusterTrendsData`: empty guard, then the sorted
entries truncated by `.slice(-12)` (the last 12 entries). -/
def clusterTrendsData (pd : List Derived) (p : PeriodType) : List TrendEntry :=
  if pd.isEmpty then []
  else (clusterTrendsFull pd p).drop ((clusterTrendsFull pd p).length - 12)

end Echo.CA

namespace Echo.P3

/-! ## part_003 — the regional panel's time series -/

/-- `part_003.timeSeriesData` before the final `.slice(-20)`: tally
records (all with non-null `parsedDate`, per `processedData`'s filter)
into insertion-ordered buckets keyed by `timeKey`, then sort by
re-parsing the bucket labels. -/
def timeSeriesFull (pd : List CA.Derived) (p : PeriodType) : List (String × Nat) :=
  jsSortBy (fun a b => CA.labelCmp a.1 b.1)
    (pd.foldl (fun acc item => bump (CA.timeKey p (item.parsedDate.getD .invalid)) acc) [])

/-- `part_003.timeSeriesData`: empty guard, then the sorted buckets
truncated by `.slice(-20)` (the last 20 entries). -/
def timeSeriesData (pd : List CA.Derived) (p : PeriodType) : List (String × Nat) :=
  if pd.isEmpty then []
  else (timeSeriesFull pd p).drop ((timeSeriesFull pd p).length - 20)

end Echo.P3

namespace Echo.NOP

/-! ## NewOverviewPanel.tsx -/

/-- A record of `NewOverviewPanel.processedData`: the raw record plus
`dateObj`, `financialYear`, `weekStart`, `monthStart`. -/
structure Derived extends ReviewData where
  dateObj : JsDate
  financialYear : Option Int
  weekStart : JsDate
  monthStart : JsDate
deriving DecidableEq

instance : Inhabited Derived := ⟨⟨default, .invalid, none, .invalid, .invalid⟩⟩

/-- The mapping step of `NewOverviewPanel.processedData`:
`const [day, month, year] = item.Date.split('/').map(Number)` (a missing
part destructures to `undefined`, hence `NaN` arithmetic), then
`fullYear = year < 50 ? 2000 + year : 1900 + year` — note: applied to
every year, its own comment notwithstanding ("Handle 2-digit years"),
so a four-digit year `y` resolves to `1900 + y` —
`dateObj = new Date(fullYear, month - 1, day)`,
`financialYear = month >= 4 ? fullYear : fullYear - 1` (`NaN ≥ 4` is
false), and the `date-fns` week/month starts. -/
def derive (item : ReviewData) : Derived :=
  let parts := jsSplit item.date '/'
  let day := jsNumber parts[0]?
  let month := jsNumber parts[1]?
  let year := jsNumber parts[2]?
  let fullYear : Option Int := year.map (fun y => if y < 50 then 2000 + y else 1900 + y)
  let dateObj := mkJsDate fullYear (month.map (fun m => m - 1)) day
  let monthGe4 : Bool := match month with | some m => 4 ≤ m | none => false
  { toReviewData := item
    dateObj := dateObj
    financialYear :=
      match fullYear with
      | none => none
      | some fy => some (if monthGe4 then fy else fy - 1)
    weekStart := startOfWeekJs dateObj
    monthStart := startOfMonthJs dateObj }

/-- `NewOverviewPanel.processedData`: derive every record, then apply
the four dimension filters — with no date-validity filter. -/
def processedData (data : List ReviewData) (st : FilterState4) : List Derived :=
  (data.map derive).filter (fun item => passDims4 st item.toReviewData)

/-- A bucket of `NewOverviewPanel.timeSeriesData`: label, count, and the
`dateObj` of the first record that opened the bucket. -/
structure Bucket where
  period : String
  complaints : Nat
  date : Int
deriving DecidableEq

/-- Insertion-ordered bucket tallying; the stored `date` is that of the
first record with the key. -/
def bumpBucket (k : String) (e : Int) : List Bucket → List Bucket
  | [] => [⟨k, 1, e⟩]
  | b :: rest =>
    if b.period = k then { b with complaints := b.complaints + 1 } :: rest
    else b :: bumpBucket k e rest

/-- `NewOverviewPanel.timeSeriesData` before the final projection:
bucket by `format(dateObj,'dd/MM/yy')` (daily),
`format(weekStart,'dd/MM/yy')` (weekly) or
`format(monthStart,'MMM yyyy')` (monthly), then sort by
`a.date.getTime() - b.date.getTime()`.  `date-fns`' `format` throws a
`RangeError` on an Invalid Date, so the whole derivation throws as soon
as any filtered record has an invalid `dateObj`; the throw is modelled
as `none` (the fold's invalid case is then unreachable). -/
def timeSeriesFull (pd : List Derived) (p : PeriodType) : Option (List Bucket) :=
  if pd.any (fun d => d.dateObj = .invalid) then none
  else
    some (jsSortBy (fun a b => some (a.date - b.date))
      (pd.foldl (fun acc item =>
        match item.dateObj, item.weekStart, item.monthStart with
        | .valid e, .valid w, .valid m =>
          bumpBucket
            (match p with
             | .daily => fmtDDMMYY e
             | .weekly => fmtDDMMYY w
             | .monthly => fmtMMMYYYY m) e acc
        | _, _, _ => acc) []))

/-- `NewOverviewPanel.timeSeriesData`: the sorted buckets projected to
`{ period, complaints }`. -/
def timeSeriesData (pd : List Derived) (p : PeriodType) : Option (List (String × Nat)) :=
  (timeSeriesFull pd p).map (List.map (fun b => (b.period, b.complaints)))

/-- The two pie-chart views (`ViewType` in the source). -/
inductive ViewType where
  | metaClusters
  | subject
deriving DecidableEq

/-- `NewOverviewPanel.pieChartData`: tally `LLM_Meta_Label` or `Subject`
(insertion order), sort descending by count (stable), keep the top 8. -/
def pieChartData (pd : List Derived) (vt : ViewType) : List (String × Nat) :=
  (jsSortBy (fun a b => some ((b.2 : Int) - (a.2 : Int)))
    (tally (fun d => match vt with
      | .metaClusters => d.llmMetaLabel
      | .subject => d.subject) pd)).take 8

/-- One trend row of `NewOverviewPanel.trendAnalysis`. -/
structure Trend where
  cluster : String
  change : Int
  firstHalf : Nat
  secondHalf : Nat
deriving DecidableEq

/-- The result of `NewOverviewPanel.trendAnalysis` (`overallTrend` is
absent, `none`, in the degenerate `< 2`-buckets result). -/
structure TrendResult where
  increasing : List Trend
  decreasing : List Trend
  overallTrend : Option String
deriving DecidableEq

/-- `processedData[Math.floor(processedData.length / 2)]?.dateObj`: the
date of the record at the midpoint index of the filtered records *in
their original order* (the optional-chaining default is unreachable in
`trendAnalysis`, which only consults this when the list is non-empty). -/
def midRecordDate (pd : List Derived) : JsDate :=
  (pd.getD (pd.length / 2) default).dateObj

/-- `NewOverviewPanel.trendAnalysis`: with fewer than 2 time buckets the
neutral `{increasing: [], decreasing: []}` is returned.  Otherwise
`midPointDate` is the `dateObj` of `processedData[floor(n/2)]` — the
filtered records in their original order, not sorted (the
`timeSeriesData[midPoint-1] ? … : new Date()` guard always takes the
first branch here since `midPoint ≥ 1`, and the index is in range since
`processedData` is at least as long as the bucket list) — each distinct
meta label (first-occurrence order, no blank filter) is counted at or
before versus strictly after `midPointDate`, and the positive /
negative changes are stably sorted and capped to 3.  `overallTrend`
compares the mean bucket counts of the two halves of the time series;
the float comparison of the two averages is modelled exactly by
cross-multiplication. -/
def trendAnalysis (pd : List Derived) (p : PeriodType) : Option TrendResult :=
  match timeSeriesFull pd p with
  | none => none
  | some ts =>
    if ts.length < 2 then some ⟨[], [], none⟩
    else
      let midPoint := ts.length / 2
      let firstHalf := ts.take midPoint
      let secondHalf := ts.drop midPoint
      let s1 : Nat := firstHalf.foldl (fun s b => s + b.complaints) 0
      let s2 : Nat := secondHalf.foldl (fun s b => s + b.complaints) 0
      let metaClusters := jsSetDedup (pd.map (·.llmMetaLabel))
      let midPointDate := midRecordDate pd
      let trends := metaClusters.map (fun cluster =>
        let clusterData := pd.filter (fun d => d.llmMetaLabel == cluster)
        let f := (clusterData.filter (fun d => jsDateLe d.dateObj midPointDate)).length
        let s := (clusterData.filter (fun d => jsDateGt d.dateObj midPointDate)).length
        Trend.mk cluster ((s : Int) - (f : Int)) f s)
      some
        ⟨(jsSortBy (fun a b => some (b.change - a.change))
            (trends.filter (fun t => 0 < t.change))).take 3,
         (jsSortBy (fun a b => some (a.change - b.change))
            (trends.filter (fun t => t.change < 0))).take 3,
         some (if s1 * secondHalf.length < s2 * firstHalf.length then "increasing"
               else "decreasing")⟩

end Echo.NOP

namespace Echo.OP

/-! ## OverviewPanel.tsx -/

/-- One bucket of `OverviewPanel.metaClusterDistribution`. -/
structure MetaBucket where
  meta : String
  count : Nat
  percentage : ℚ
deriving DecidableEq

/-- `OverviewPanel.metaClusterDistribution`: tally `LLM_Meta_Label` over
the whole dataset (plain-object insertion order), sort descending by
count (stable), and attach `percentage = (count / data.length) * 100`.
Percentages are modelled in exact rationals (JS computes them in
floating point; every value a claim compares is exactly representable;
an empty dataset gives `NaN` in JS and `0` here — no claim evaluates
it). -/
def metaClusterDistribution (data : List Review01) : List MetaBucket :=
  (jsSortBy (fun a b => some ((b.2 : Int) - (a.2 : Int))) (tally (·.llmMetaLabel) data)).map
    (fun kv => ⟨kv.1, kv.2, ((kv.2 : ℚ) / (data.length : ℚ)) * 100⟩)

end Echo.OP

namespace Echo.Ingest

/-! ## Ingestion (part_000 extended schema, part_001 minimal schema)

Decoded spreadsheet rows are modelled as lists of cell texts (a numeric
cell stands for its decimal rendering; the only falsy cell values a
claim exercises are empty strings). -/

/-- `row[headers.indexOf(name)] || ''`: a missing header
(`indexOf = -1`) or a short row gives `undefined`, hence `''`; an empty
cell is falsy and also gives `''`, which is the identity on it. -/
def cell (headers row : List String) (name : String) : String :=
  (((headers.indexOf? name).bind (fun i => row[i]?)).getD "")

/-- `part_000`'s row mapping (extended schema); `'S.No': row[...] || 0`
defaults to the number 0, rendered "0" in this all-text model. -/
def mkExtended (headers row : List String) : ReviewData :=
  { sno := (let v := cell headers row "S.No"; if v = "" then "0" else v)
    storeName := cell headers row "Store Name"
    region := cell headers row "Region"
    date := cell headers row "Date"
    remark := cell headers row "Remark"
    subject := cell headers row "Subject"
    aggregator := cell headers row "Aggregator"
    month := cell headers row "Month"
    areaManagerName := cell headers row "Area Manger Name"
    llmClusterLabel := cell headers row "LLM_Cluster_Label"
    llmMetaLabel := cell headers row "LLM_Meta_Label" }

/-- `part_000`'s `processedData`: map the rows, then
`.filter(item => item['Store Name'] && item['Remark'] && item['LLM_Cluster_Label'])`. -/
def ingestExtended (headers : List String) (rows : List (List String)) : List ReviewData :=
  (rows.map (mkExtended headers)).filter
    (fun item => item.storeName ≠ "" && item.remark ≠ "" && item.llmClusterLabel ≠ "")

/-- `part_001`'s `processedData`: map the rows to the minimal shape,
then `.filter(item => item.City && item.Reviews)` — the cluster label is
not checked. -/
def ingestMinimal (headers : List String) (rows : List (List String)) : List Review01 :=
  (rows.map (fun row =>
    Review01.mk (cell headers row "City") (cell headers row "Reviews")
      (cell headers row "LLM_Cluster_Label") (cell headers row "LLM_Meta_Label"))).filter
    (fun item => item.city ≠ "" && item.reviews ≠ "")

end Echo.Ingest

namespace Echo.Spec

/-! ## Definitions following the specification text

These definitions are *not* translations of the source; each follows the
wording of a claim, to be compared against the source-derived
definitions above. -/

/-- The cascading-options rule as the specification states it: the
options for dimension *D* are drawn from the records satisfying every
dimension filter strictly preceding *D* in the cascade order
region → area manager → store → aggregator → meta-cluster → subject,
ignoring *D*'s own selection and all later ones; blanks are excluded and
the lists are sorted. -/
def cascadingOptions (data : List ReviewData) (st : FilterState6) : DR.Options6 :=
  let pRegion := fun (r : ReviewData) =>
    st.selectedRegion == "all" || r.region == st.selectedRegion
  let pManager := fun (r : ReviewData) =>
    st.selectedAreaManager == "all" || r.areaManagerName == st.selectedAreaManager
  let pStore := fun (r : ReviewData) =>
    st.selectedStore == "all" || r.storeName == st.selectedStore
  let pAgg := fun (r : ReviewData) =>
    st.selectedAggregator == "all" || r.aggregator == st.selectedAggregator
  let pMeta := fun (r : ReviewData) =>
    st.selectedMetaCluster == "all" || r.llmMetaLabel == st.selectedMetaCluster
  { regions := uniqueSorted (data.map (·.region))
    areaManagers := uniqueSorted ((data.filter (fun r => pRegion r)).map (·.areaManagerName))
    stores := uniqueSorted ((data.filter (fun r => pRegion r && pManager r)).map (·.storeName))
    aggregators := uniqueSorted ((data.filter (fun r =>
      pRegion r && pManager r && pStore r)).map (·.aggregator))
    metaClusters := uniqueSorted ((data.filter (fun r =>
      pRegion r && pManager r && pStore r && pAgg r)).map (·.llmMetaLabel))
    subjects := uniqueSorted ((data.filter (fun r =>
      pRegion r && pManager r && pStore r && pAgg r && pMeta r)).map (·.subject)) }

/-- The specification's fiscal-year label format
`FY<startYear>-<endYear2digit>`. -/
def fyLabel (start : Int) : String :=
  "FY" ++ toString start ++ "-" ++ last2 (toString (start + 1))

/-- The specification's `AggregateBucket` ordering rule: descending by
count, ties broken by ascending lexicographic key. -/
def orderedTally (t : List (String × Nat)) : List (String × Nat) :=
  stableSort (fun a b => (b.2 < a.2) || (a.2 = b.2 && jsStringLe a.1 b.1)) t

/-- The trend algorithm as the claim states it: sort the filtered
records chronologically by their parsed date, take the record at the
midpoint index `⌊n/2⌋` of the *sorted* list, count each distinct key at
or before versus strictly after that record's date, and return the
positive changes (descending, top 3) and negative changes (ascending,
top 3). -/
def trendDeltas (pd : List NOP.Derived) : List NOP.Trend × List NOP.Trend :=
  let sorted := stableSort (fun a b => jsDateLe a.dateObj b.dateObj) pd
  let midPointDate := (sorted.getD (sorted.length / 2) default).dateObj
  let keys := jsSetDedup (pd.map (·.llmMetaLabel))
  let trends := keys.map (fun cluster =>
    let cd := pd.filter (fun d => d.llmMetaLabel == cluster)
    let f := (cd.filter (fun d => jsDateLe d.dateObj midPointDate)).length
    let s := (cd.filter (fun d => jsDateGt d.dateObj midPointDate)).length
    NOP.Trend.mk cluster ((s : Int) - (f : Int)) f s)
  ((jsSortBy (fun a b => some (b.change - a.change)) (trends.filter (fun t => 0 < t.change))).take 3,
   (jsSortBy (fun a b => some (a.change - b.change)) (trends.filter (fun t => t.change < 0))).take 3)

end Echo.Spec

namespace Echo.Ex

/-! ## Concrete inputs used by counterexamples and witnesses -/

/-- Record builder for concrete examples. -/
def mkRec (store region manager meta subj date : String) : ReviewData :=
  { sno := "1", storeName := store, region := region, date := date, remark := "r"
    subject := subj, aggregator := "Zom", month := "", areaManagerName := manager
    llmClusterLabel := "c", llmMetaLabel := meta }

/-- C1: two records in the same region under different area managers. -/
def c1data : List ReviewData :=
  [mkRec "S1" "N" "M1" "Q" "Sub" "01/05/24", mkRec "S2" "N" "M2" "Q" "Sub" "01/05/24"]

/-- C1: area manager "M1" selected, everything else at `"all"`. -/
def c1st : FilterState6 := { allState6 with selectedAreaManager := "M1" }

/-- C2: a record whose date has only two `'/'`-separated parts. -/
def c2bad : ReviewData := mkRec "S1" "N" "M1" "Q" "Sub" "05/2024"

/-- C5: the specification's two-record example (Quality occurs first). -/
def c5ex : List Review01 := [⟨"A", "good", "Cold Food", "Quality"⟩, ⟨"B", "bad", "Late Delivery", "Speed"⟩]

/-- C5: the same two records with Speed occurring first. -/
def c5rev : List Review01 := [⟨"B", "bad", "Late Delivery", "Speed"⟩, ⟨"A", "good", "Cold Food", "Quality"⟩]

/-- C6: two records in different weeks, the later week first in the
input (10/06/25 sits in the week of Sun 08 Jun 2025; 03/06/25 in the
week of Sun 01 Jun 2025). -/
def c6data : List ReviewData :=
  [mkRec "S1" "N" "M1" "Q" "Sub" "10/06/25", mkRec "S1" "N" "M1" "Q" "Sub" "03/06/25"]

/-- C7: three valid-date records in non-chronological input order. -/
def c7data : List ReviewData :=
  [mkRec "S1" "N" "M1" "A" "Sub" "15/03/24",
   mkRec "S1" "N" "M1" "A" "Sub" "10/01/24",
   mkRec "S1" "N" "M1" "B" "Sub" "05/02/24"]

/-- C9: minimal-schema headers. -/
def c9headers : List String := ["City", "Reviews", "LLM_Cluster_Label", "LLM_Meta_Label"]

/-- C9: a row with a non-empty City and Reviews but an empty cluster label. -/
def c9row : List String := ["X", "good", "", ""]

/-- C10: thirteen records, one per week (consecutive Sundays from
05/01/25 to 30/03/25), with the *oldest* week's record placed last. -/
def c10data : List ReviewData :=
  ["12/01/25", "19/01/25", "26/01/25", "02/02/25", "09/02/25", "16/02/25", "23/02/25",
   "02/03/25", "09/03/25", "16/03/25", "23/03/25", "30/03/25", "05/01/25"].map
    (fun d => mkRec "S1" "N" "M1" "Q" "Sub" d)

end Echo.Ex

namespace Echo

/-! ## General lemmas about the JS-semantics helpers -/

theorem insertStable_perm (le : α → α → Bool) (x : α) (l : List α) :
    insertStable le x l ~ x :: l := by
  induction l with
  | nil => exact List.Perm.refl _
  | cons y ys ih =>
    simp only [insertStable]
    split
    · exact (ih.cons y).trans (List.Perm.swap x y ys)
    · exact List.Perm.refl _

theorem foldl_insertStable_perm (le : α → α → Bool) (l acc : List α) :
    l.foldl (fun acc x => insertStable le x acc) acc ~ acc ++ l := by
  induction l generalizing acc with
  | nil => simp
  | cons x xs ih =>
    calc xs.foldl (fun acc x => insertStable le x acc) (insertStable le x acc)
        ~ insertStable le x acc ++ xs := ih _
      _ ~ (x :: acc) ++ xs := (insertStable_perm le x acc).append_right xs
      _ ~ acc ++ x :: xs := List.perm_middle.symm

theorem stableSort_perm (le : α → α → Bool) (l : List α) : stableSort le l ~ l := by
  simpa using foldl_insertStable_perm le l []

theorem mem_stableSort {le : α → α → Bool} {l : List α} {a : α} :
    a ∈ stableSort le l ↔ a ∈ l :=
  (stableSort_perm le l).mem_iff

theorem mem_jsSortBy {cmp : α → α → Option Int} {l : List α} {a : α} :
    a ∈ jsSortBy cmp l ↔ a ∈ l :=
  mem_stableSort

theorem sorted_insertStable (le : α → α → Bool)
    (htrans : ∀ a b c, le a b = true → le b c = true → le a c = true)
    (htotal : ∀ a b, le a b = true ∨ le b a = true)
    (x : α) {l : List α} (h : l.Pairwise (fun a b => le a b = true)) :
    (insertStable le x l).Pairwise (fun a b => le a b = true) := by
  induction l with
  | nil => simp [insertStable]
  | cons y ys ih =>
    rcases List.pairwise_cons.mp h with ⟨hy, hys⟩
    simp only [insertStable]
    split
    case isTrue hle =>
      refine List.pairwise_cons.mpr ⟨?_, ih hys⟩
      intro b hb
      rcases List.mem_cons.mp ((insertStable_perm le x ys).mem_iff.mp hb) with rfl | hbys
      · exact hle
      · exact hy b hbys
    case isFalse hle =>
      have hxy : le x y = true := (htotal x y).resolve_right (by simpa using hle)
      refine List.pairwise_cons.mpr ⟨?_, h⟩
      intro b hb
      rcases List.mem_cons.mp hb with rfl | hbys
      · exact hxy
      · exact htrans x y b hxy (hy b hbys)

theorem sorted_stableSort (le : α → α → Bool)
    (htrans : ∀ a b c, le a b = true → le b c = true → le a c = true)
    (htotal : ∀ a b, le a b = true ∨ le b a = true)
    (l : List α) : (stableSort le l).Pairwise (fun a b => le a b = true) := by
  suffices h : ∀ acc : List α, acc.Pairwise (fun a b => le a b = true) →
      (l.foldl (fun acc x => insertStable le x acc) acc).Pairwise (fun a b => le a b = true) by
    exact h [] (by simp)
  induction l with
  | nil => intro acc hacc; simpa using hacc
  | cons x xs ih =>
    intro acc hacc
    exact ih _ (sorted_insertStable le htrans htotal x hacc)

/-- The output of a `jsSortBy` with a transitive, total (never-`NaN`-
asymmetric) comparator is sorted. -/
theorem jsSortBy_pairwise (cmp : α → α → Option Int)
    (htrans : ∀ a b c, (cmp a b).getD 0 ≤ 0 → (cmp b c).getD 0 ≤ 0 → (cmp a c).getD 0 ≤ 0)
    (htotal : ∀ a b, (cmp a b).getD 0 ≤ 0 ∨ (cmp b a).getD 0 ≤ 0)
    (l : List α) : (jsSortBy cmp l).Pairwise (fun a b => (cmp a b).getD 0 ≤ 0) := by
  have h := sorted_stableSort (fun a b => ((cmp a b).getD 0 ≤ 0 : Bool))
    (by
      intro a b c hab hbc
      simp only [decide_eq_true_eq] at hab hbc ⊢
      exact htrans a b c hab hbc)
    (by
      intro a b
      rcases htotal a b with h | h
      · exact Or.inl (by simpa using h)
      · exact Or.inr (by simpa using h)) l
  exact h.imp (by intro a b hb; simpa using hb)

/-- Two successive filters count like a single conjunctive `countP`. -/
theorem length_filter_filter_comm (p q : α → Bool) (l : List α) :
    ((l.filter p).filter q).length = l.countP (fun a => p a && q a) := by
  rw [List.countP_eq_length_filter, List.filter_filter]
  congr 1
  apply List.filter_congr
  intro a _
  exact Bool.and_comm _ _

theorem mem_jsSetDedup_go (l : List String) (seen : List String) (a : String) :
    a ∈ jsSetDedup.go l seen ↔ a ∈ l ∧ a ∉ seen := by
  induction l generalizing seen with
  | nil => simp [jsSetDedup.go]
  | cons x xs ih =>
    simp only [jsSetDedup.go]
    split
    case isTrue hx =>
      rw [ih]
      constructor
      · rintro ⟨h1, h2⟩; exact ⟨List.mem_cons_of_mem x h1, h2⟩
      · rintro ⟨h1, h2⟩
        rcases List.mem_cons.mp h1 with rfl | h1
        · exact absurd hx h2
        · exact ⟨h1, h2⟩
    case isFalse hx =>
      constructor
      · intro h
        rcases List.mem_cons.mp h with rfl | h
        · exact ⟨List.mem_cons_self a xs, hx⟩
        · rcases (ih _).mp h with ⟨h1, h2⟩
          refine ⟨List.mem_cons_of_mem x h1, fun hs => h2 (List.mem_cons_of_mem x hs)⟩
      · rintro ⟨h1, h2⟩
        rcases List.mem_cons.mp h1 with rfl | h1
        · exact List.mem_cons_self a _
        · by_cases hax : a = x
          · subst hax; exact List.mem_cons_self a _
          · exact List.mem_cons_of_mem x ((ih _).mpr ⟨h1, by
              intro hs
              rcases List.mem_cons.mp hs with h | h
              · exact hax h
              · exact h2 h⟩)

theorem mem_jsSetDedup {l : List String} {a : String} :
    a ∈ jsSetDedup l ↔ a ∈ l := by
  rw [jsSetDedup, mem_jsSetDedup_go]
  simp

theorem mem_uniqueSorted {xs : List String} {a : String} :
    a ∈ uniqueSorted xs ↔ a ∈ xs ∧ a ≠ "" := by
  rw [uniqueSorted, mem_stableSort, List.mem_filter, mem_jsSetDedup]
  simp

/-- Concatenating `n` consecutive `k`-sized slices covers a list of
length at most `n * k`. -/
theorem join_pages (k : Nat) :
    ∀ (n : Nat) (l : List α), l.length ≤ n * k →
      ((List.range n).map (fun i => (l.drop (i * k)).take k)).flatten = l := by
  intro n
  induction n with
  | zero =>
    intro l h
    simp only [Nat.zero_mul, Nat.le_zero, List.length_eq_zero] at h
    simp [h]
  | succ n ih =>
    intro l h
    rw [List.range_succ_eq_map, List.map_cons, List.flatten_cons, List.map_map]
    have hmaps : ((List.range n).map ((fun i => (l.drop (i * k)).take k) ∘ Nat.succ)) =
        (List.range n).map (fun i => ((l.drop k).drop (i * k)).take k) := by
      apply List.map_congr_left
      intro i _
      simp only [Function.comp_apply, List.drop_drop]
      have hik : Nat.succ i * k = k + i * k := by rw [Nat.succ_mul]; omega
      rw [hik]
    rw [hmaps, Nat.zero_mul, List.drop_zero, ih (l.drop k) (by
      rw [List.length_drop]
      rw [Nat.add_mul, Nat.one_mul] at h
      omega)]
    exact List.take_append_drop k l

/-- `Math.ceil` of a natural division, as a natural-number formula. -/
theorem ceil_div_nat (a b : Nat) (hb : 0 < b) :
    Nat.ceil ((a : ℚ) / (b : ℚ)) = (a + b - 1) / b := by
  have hb' : (0 : ℚ) < (b : ℚ) := by positivity
  apply Nat.le_antisymm
  · -- ceil ≤ (a + b - 1)/b, via a ≤ ((a+b-1)/b) * b
    apply Nat.ceil_le.mpr
    rw [div_le_iff₀ hb']
    have h1 : a ≤ ((a + b - 1) / b) * b := by
      have hmod := Nat.div_add_mod (a + b - 1) b
      have hr : (a + b - 1) % b < b := Nat.mod_lt _ hb
      rcases Nat.eq_zero_or_pos a with rfl | ha
      · simp
      · have : b * ((a + b - 1) / b) + (a + b - 1) % b = a + b - 1 := hmod
        have hbn : a ≤ b * ((a + b - 1) / b) := by omega
        calc (a : Nat) ≤ b * ((a + b - 1) / b) := hbn
          _ = ((a + b - 1) / b) * b := Nat.mul_comm _ _
    calc ((a : ℚ)) ≤ (((a + b - 1) / b * b : Nat) : ℚ) := by exact_mod_cast h1
      _ = (((a + b - 1) / b : Nat) : ℚ) * (b : ℚ) := by push_cast; ring
  · -- (a + b - 1)/b ≤ ceil, via a ≤ ceil * b
    have hle : (a : ℚ) ≤ (Nat.ceil ((a : ℚ) / (b : ℚ)) : ℚ) * (b : ℚ) := by
      rw [← div_le_iff₀ hb']
      exact Nat.le_ceil _
    have hle' : a ≤ Nat.ceil ((a : ℚ) / (b : ℚ)) * b := by exact_mod_cast hle
    calc (a + b - 1) / b ≤ (Nat.ceil ((a : ℚ) / (b : ℚ)) * b + (b - 1)) / b := by
          apply Nat.div_le_div_right
          omega
      _ = Nat.ceil ((a : ℚ) / (b : ℚ)) + (b - 1) / b := by
          rw [Nat.mul_comm, Nat.mul_add_div hb]
      _ = Nat.ceil ((a : ℚ) / (b : ℚ)) := by
          rw [Nat.div_eq_of_lt (by omega), Nat.add_zero]

end Echo

namespace Echo

/-! ## Claim C1 — cascading filter options -/

/-- C1 (counterexample): with two same-region records under area
managers "M1" and "M2" and "M1" selected, the claim says the area
manager option list ignores the dimension's own selection and offers
both managers; `DetailedReviews.filterOptions` pre-filters by *all*
active selections (its own included) and offers only "M1". -/
theorem c1_cascade_counterexample :
    (DR.filterOptions Ex.c1data Ex.c1st).areaManagers = ["M1"] ∧
    (Spec.cascadingOptions Ex.c1data Ex.c1st).areaManagers = ["M1", "M2"] := by
  decide

/-- C1 (amended): every option list of `DetailedReviews.filterOptions`
except `regions` is drawn from the records satisfying *all six*
currently active dimension filters (the re-application of the upstream
filters is absorbed by the initial full filtering); `regions` comes from
the unfiltered dataset; blanks are excluded and lists are sorted; in
particular, once an area manager is selected, the area manager option
list can only contain that selection. -/
theorem c1_cascade_amended (data : List ReviewData) (st : FilterState6) :
    (DR.filterOptions data st).regions = uniqueSorted (data.map (·.region)) ∧
    (DR.filterOptions data st).areaManagers =
      uniqueSorted ((data.filter (passDims6 st)).map (·.areaManagerName)) ∧
    (DR.filterOptions data st).stores =
      uniqueSorted ((data.filter (passDims6 st)).map (·.storeName)) ∧
    (DR.filterOptions data st).aggregators =
      uniqueSorted ((data.filter (passDims6 st)).map (·.aggregator)) ∧
    (DR.filterOptions data st).metaClusters =
      uniqueSorted ((data.filter (passDims6 st)).map (·.llmMetaLabel)) ∧
    (DR.filterOptions data st).subjects =
      uniqueSorted ((data.filter (passDims6 st)).map (·.subject)) ∧
    (st.selectedAreaManager ≠ "all" →
      ∀ x ∈ (DR.filterOptions data st).areaManagers, x = st.selectedAreaManager) := by
  have habs : ∀ q : ReviewData → Bool,
      (∀ d, passDims6 st d = true → q d = true) →
      (data.filter (passDims6 st)).filter q = data.filter (passDims6 st) := by
    intro q hq
    rw [List.filter_filter]
    apply List.filter_congr
    intro d _
    cases hp : passDims6 st d
    · simp
    · simp [hq d hp]
  have hAM : (DR.filterOptions data st).areaManagers =
      uniqueSorted ((data.filter (passDims6 st)).map (·.areaManagerName)) := by
    show uniqueSorted (((data.filter (passDims6 st)).filter _).map (·.areaManagerName)) = _
    rw [habs _ (by
      intro d hd
      simp only [passDims6, Bool.and_eq_true] at hd
      exact hd.1.1.1.1.1)]
  refine ⟨rfl, hAM, ?_, ?_, ?_, ?_, ?_⟩
  · show uniqueSorted (((data.filter (passDims6 st)).filter _).map (·.storeName)) = _
    rw [habs _ (by
      intro d hd
      simp only [passDims6, Bool.and_eq_true] at hd
      simp [hd.1.1.1.1.1, hd.1.1.1.1.2])]
  · show uniqueSorted (((data.filter (passDims6 st)).filter _).map (·.aggregator)) = _
    rw [habs _ (by
      intro d hd
      simp only [passDims6, Bool.and_eq_true] at hd
      simp [hd.1.1.1.1.1, hd.1.1.1.1.2, hd.1.1.1.2])]
  · show uniqueSorted (((data.filter (passDims6 st)).filter _).map (·.llmMetaLabel)) = _
    rw [habs _ (by
      intro d hd
      simp only [passDims6, Bool.and_eq_true] at hd
      simp [hd.1.1.1.1.1, hd.1.1.1.1.2, hd.1.1.1.2, hd.1.1.2])]
  · show uniqueSorted (((data.filter (passDims6 st)).filter _).map (·.subject)) = _
    rw [habs _ (by
      intro d hd
      simp only [passDims6, Bool.and_eq_true] at hd
      simp [hd.1.1.1.1.1, hd.1.1.1.1.2, hd.1.1.1.2, hd.1.1.2, hd.1.2])]
  · intro hne x hx
    rw [hAM] at hx
    rcases mem_uniqueSorted.mp hx with ⟨hx1, -⟩
    rcases List.mem_map.mp hx1 with ⟨d, hd, rfl⟩
    rcases List.mem_filter.mp hd with ⟨-, hpass⟩
    simp only [passDims6, Bool.and_eq_true, Bool.or_eq_true, beq_iff_eq] at hpass
    exact hpass.1.1.1.1.2.resolve_left hne

/-- C1 (witness): the amended theorem applied to the two-record input
with "M1" selected. -/
theorem c1_cascade_amended_witness :
    (DR.filterOptions Ex.c1data Ex.c1st).areaManagers =
      uniqueSorted ((Ex.c1data.filter (passDims6 Ex.c1st)).map (·.areaManagerName)) ∧
    (∀ x ∈ (DR.filterOptions Ex.c1data Ex.c1st).areaManagers, x = "M1") := by
  have h := c1_cascade_amended Ex.c1data Ex.c1st
  exact ⟨h.2.1, h.2.2.2.2.2.2 (by decide)⟩

/-! ## Claim C2 — malformed dates -/

/-- C2 (counterexample): a record whose `Date` is "05/2024" (two parts,
`parsedDate = null`) passes every dimension filter but is excluded from
`DetailedReviews.processedData` — the review browser's record list —
contradicting "remains present in … the review browser". -/
theorem c2_malformedDate_counterexample :
    passDims6 allState6 Ex.c2bad = true ∧
    DR.processedData [Ex.c2bad] allState6 "" .date .desc = [] := by
  decide

/-- C2 (amended): a record whose `parsedDate` is `null` is excluded
from `DetailedReviews.processedData` and
`ClustersAnalysis`/`part_003`'s `processedData` entirely — every view
those memos feed, temporal and non-temporal alike (every surviving
record has a non-null `parsedDate`); `NewOverviewPanel.processedData`
instead retains every record passing the dimension filters regardless
of date validity, and its time-series derivation fails (the `date-fns`
`format` call throws) whenever an invalid date is present, rather than
skipping the record. -/
theorem c2_malformedDate_amended :
    (∀ (data : List ReviewData) (st : FilterState6) (q : String) (sf : DR.SortField)
        (so : DR.SortOrder), ∀ e ∈ DR.processedData data st q sf so, e.parsedDate ≠ none) ∧
    (∀ (data : List ReviewData) (st : FilterState4),
        ∀ e ∈ CA.processedData data st, e.parsedDate ≠ none) ∧
    (∀ (data : List ReviewData) (st : FilterState4),
        (NOP.processedData data st).map (·.toReviewData) = data.filter (passDims4 st)) ∧
    (∀ (data : List ReviewData) (st : FilterState4) (p : PeriodType),
        (∃ e ∈ NOP.processedData data st, e.dateObj = .invalid) →
          NOP.timeSeriesData (NOP.processedData data st) p = none) := by
  refine ⟨?_, ?_, ?_, ?_⟩
  · intro data st q sf so e he
    simp only [DR.processedData] at he
    replace he := mem_jsSortBy.mp he
    rcases List.mem_filter.mp he with ⟨-, hp⟩
    simp only [Bool.and_eq_true] at hp
    exact Option.isSome_iff_ne_none.mp hp.1.1
  · intro data st e he
    rcases List.mem_filter.mp he with ⟨-, hp⟩
    simp only [Bool.and_eq_true] at hp
    exact Option.isSome_iff_ne_none.mp hp.1
  · intro data st
    show ((data.map NOP.derive).filter _).map (·.toReviewData) = _
    rw [List.filter_map, List.map_map]
    have h1 : ((fun (x : NOP.Derived) => x.toReviewData) ∘ NOP.derive) = fun x => x := rfl
    have h2 : ((fun (item : NOP.Derived) => passDims4 st item.toReviewData) ∘ NOP.derive) =
        passDims4 st := rfl
    rw [h1, h2, List.map_id']
  · intro data st p hex
    rcases hex with ⟨e, he, hinv⟩
    have hany : (NOP.processedData data st).any (fun d => d.dateObj = .invalid) = true :=
      List.any_eq_true.mpr ⟨e, he, by simp [hinv]⟩
    simp only [NOP.timeSeriesData, NOP.timeSeriesFull, hany]
    rfl

/-- C2 (witness): the amended theorem applied to a valid-date record in
the review browser and to the malformed-date record in
`NewOverviewPanel`'s time series. -/
theorem c2_malformedDate_witness :
    (DR.Derived.mk (Ex.mkRec "S1" "N" "M1" "Q" "Sub" "01/05/24")
        (DR.parsedDate "01/05/24")).parsedDate ≠ none ∧
    NOP.timeSeriesData (NOP.processedData [Ex.c2bad] allState4) .monthly = none := by
  constructor
  · exact c2_malformedDate_amended.1 [Ex.mkRec "S1" "N" "M1" "Q" "Sub" "01/05/24"]
      allState6 "" .date .desc _ (by decide)
  · exact c2_malformedDate_amended.2.2.2 [Ex.c2bad] allState4 .monthly
      ⟨NOP.derive Ex.c2bad, by decide, by decide⟩

/-! ## Claim C3 — year resolution -/

/-- C3: two-digit years resolve exactly as claimed in every parser
("15/06/23" → 2023, "15/06/85" → 1985), and `DetailedReviews` (like
`ClustersAnalysis`/`part_003`) uses a four-digit year as-is; but
`NewOverviewPanel.processedData` applies the two-digit rule to every
year — its own "Handle 2-digit years" comment notwithstanding — so
"15/06/2023" is resolved to full year 1900 + 2023 = 3923 there. -/
theorem c3_yearResolution :
    DR.parsedDate "15/06/23" = some (.valid (daysFromCivil 2023 6 15)) ∧
    DR.parsedDate "15/06/85" = some (.valid (daysFromCivil 1985 6 15)) ∧
    DR.parsedDate "15/06/2023" = some (.valid (daysFromCivil 2023 6 15)) ∧
    (NOP.derive (Ex.mkRec "S" "N" "M" "Q" "Su" "15/06/23")).dateObj =
      .valid (daysFromCivil 2023 6 15) ∧
    (NOP.derive (Ex.mkRec "S" "N" "M" "Q" "Su" "15/06/2023")).dateObj =
      .valid (daysFromCivil 3923 6 15) := by
  decide

/-! ## Claim C4 — fiscal-year labels -/

/-- C4: for a date with numeric parts and a four-digit year `y`, the
fiscal-year label of `ClustersAnalysis`/`part_003` is the
specification's `FY<start>-<end2digit>` with start year `y` when the
month is at least 4 and `y - 1` otherwise. -/
theorem c4_fiscalYear (ds ms ys : String) (m y : Nat)
    (hd : ds ≠ "") (hmne : ms ≠ "") (hm : parseDigits ms = some m)
    (hy : parseDigits ys = some y) (hylen : ys.length = 4)
    (hm1 : 1 ≤ m) (hm12 : m ≤ 12) :
    CA.financialYearParts ds ms ys =
      some (Spec.fyLabel (if 4 ≤ m then (y : Int) else (y : Int) - 1)) := by
  have hyne : ys ≠ "" := by
    intro h
    rw [h] at hylen
    simp at hylen
  unfold CA.financialYearParts
  rw [if_neg (by simp [hd, hmne, hyne])]
  rw [if_neg (by omega : ¬ ys.length = 2)]
  rw [hy, hm]
  by_cases h4 : 4 ≤ m
  · simp [h4, Spec.fyLabel]
  · simp [h4, Spec.fyLabel, sub_add_cancel]

/-- C4 (witness): the specification's two boundary instances, and the
general theorem applied at 31/03/2024. -/
theorem c4_fiscalYear_witness :
    CA.financialYear "31/03/2024" = some "FY2023-24" ∧
    CA.financialYear "01/04/2024" = some "FY2024-25" ∧
    CA.financialYearParts "31" "03" "2024" = some (Spec.fyLabel 2023) := by
  refine ⟨by decide, by decide, ?_⟩
  have h := c4_fiscalYear "31" "03" "2024" 3 2024 (by decide) (by decide) (by decide)
    (by decide) (by decide) (by decide) (by decide)
  simpa using h

/-! ## Claim C5 — aggregate bucket ordering -/

/-- C5 (counterexample): with the two tied records in the order
Speed, Quality, the claimed lexicographic tie-break would put Quality
first; `OverviewPanel.metaClusterDistribution`'s stable sort keeps
first-occurrence order and puts Speed first. -/
theorem c5_ordering_counterexample :
    (OP.metaClusterDistribution Ex.c5rev).map (·.meta) = ["Speed", "Quality"] ∧
    (Spec.orderedTally (tally (·.llmMetaLabel) Ex.c5rev)).map (·.1) = ["Quality", "Speed"] := by
  decide

/-- C5 (amended): `OverviewPanel.metaClusterDistribution` is ordered
descending by count with ties kept in first-occurrence order (a stable
sort over the insertion-ordered tally — not re-ordered
lexicographically), its buckets are exactly the tally of the meta
labels, percentages are `100 · count / total`, and on the
specification's example (where Quality happens to occur first) it
returns Quality (1, 50%) before Speed (1, 50%). -/
theorem c5_ordering_amended (data : List Review01) :
    (OP.metaClusterDistribution data).Pairwise (fun a b => b.count ≤ a.count) ∧
    List.Perm ((OP.metaClusterDistribution data).map (fun b => (b.meta, b.count)))
      (tally (·.llmMetaLabel) data) ∧
    (∀ b ∈ OP.metaClusterDistribution data,
      b.percentage = ((b.count : ℚ) / (data.length : ℚ)) * 100) ∧
    OP.metaClusterDistribution Ex.c5ex =
      [⟨"Quality", 1, 50⟩, ⟨"Speed", 1, 50⟩] := by
  refine ⟨?_, ?_, ?_, ?_⟩
  · show (List.map _ (jsSortBy _ _)).Pairwise _
    rw [List.pairwise_map]
    have h := jsSortBy_pairwise
      (fun a b : String × Nat => some ((b.2 : Int) - (a.2 : Int)))
      (by intro a b c hab hbc; simp only [Option.getD_some] at *; omega)
      (by intro a b; simp only [Option.getD_some]; omega)
      (tally (·.llmMetaLabel) data)
    refine h.imp ?_
    intro a b hb
    simp only [Option.getD_some] at hb
    show b.2 ≤ a.2
    omega
  · show List.Perm ((jsSortBy _ _).map _ |>.map _) _
    rw [List.map_map]
    have heq : ((fun b : OP.MetaBucket => (b.meta, b.count)) ∘
        (fun kv : String × Nat =>
          OP.MetaBucket.mk kv.1 kv.2 (((kv.2 : ℚ) / ((data.length : Nat) : ℚ)) * 100))) =
        fun kv => kv := funext fun kv => rfl
    rw [heq, List.map_id']
    exact stableSort_perm _ _
  · intro b hb
    rcases List.mem_map.mp hb with ⟨kv, -, rfl⟩
    rfl
  · have hsorted : jsSortBy (fun a b : String × Nat => some ((b.2 : Int) - (a.2 : Int)))
        (tally (·.llmMetaLabel) Ex.c5ex) = [("Quality", 1), ("Speed", 1)] := by decide
    show (jsSortBy _ _).map _ = _
    rw [hsorted]
    simp only [List.map_cons, List.map_nil, List.cons.injEq, OP.MetaBucket.mk.injEq, and_true]
    norm_num [Ex.c5ex]

/-- C5 (witness): the amended theorem applied to the example data and
its Quality bucket. -/
theorem c5_ordering_witness :
    (OP.MetaBucket.mk "Quality" 1 50).percentage = ((1 : ℚ) / (2 : ℚ)) * 100 := by
  have hmem : (OP.MetaBucket.mk "Quality" 1 50) ∈ OP.metaClusterDistribution Ex.c5ex := by
    rw [(c5_ordering_amended Ex.c5ex).2.2.2]
    exact List.mem_cons_self _ _
  have h := (c5_ordering_amended Ex.c5ex).2.2.1 ⟨"Quality", 1, 50⟩ hmem
  simpa using h

/-! ## Claim C6 — time-series bucket ordering -/

/-- C6 (counterexample): in `part_003`'s regional time series at weekly
granularity, the "Week of …" labels do not re-parse as dates, the
comparator yields `NaN` (coerced to equality), and the buckets stay in
first-occurrence order: with the later week's record first in the
input, the bucket of the chronologically *later* week (Sun 08 Jun 2025)
is emitted before the earlier one (Sun 01 Jun 2025). -/
theorem c6_timeSeries_counterexample :
    (P3.timeSeriesData (CA.processedData Ex.c6data allState4) .weekly).map (·.1) =
      ["Week of Sun Jun 08 2025", "Week of Sun Jun 01 2025"] ∧
    daysFromCivil 2025 6 1 < daysFromCivil 2025 6 8 := by
  decide

/-- C6 (amended): `NewOverviewPanel`'s time series (when it does not
throw) is sorted ascending by each bucket's stored first-record date —
chronological order, since its day/week/month buckets partition the
timeline — while `ClustersAnalysis`/`part_003` restrict their series to
records with a non-null `parsedDate` but order buckets by re-parsing the
label strings (chronological only where those labels re-parse, i.e.
daily and monthly, not weekly). -/
theorem c6_timeSeries_amended :
    (∀ (data : List ReviewData) (st : FilterState4) (p : PeriodType)
        (buckets : List NOP.Bucket),
        NOP.timeSeriesFull (NOP.processedData data st) p = some buckets →
          buckets.Pairwise (fun a b => a.date ≤ b.date)) ∧
    (∀ (data : List ReviewData) (st : FilterState4),
        ∀ e ∈ CA.processedData data st, e.parsedDate ≠ none) := by
  constructor
  · intro data st p buckets h
    unfold NOP.timeSeriesFull at h
    split at h
    · exact absurd h (by simp)
    · replace h := (Option.some.inj h).symm
      subst h
      exact (jsSortBy_pairwise
        (fun a b : NOP.Bucket => some (a.date - b.date))
        (by intro a b c hab hbc; simp only [Option.getD_some] at *; omega)
        (by intro a b; simp only [Option.getD_some]; omega) _).imp
        (by intro a b hb; simp only [Option.getD_some] at hb; omega)
  · intro data st e he
    rcases List.mem_filter.mp he with ⟨-, hp⟩
    simp only [Bool.and_eq_true] at hp
    exact Option.isSome_iff_ne_none.mp hp.1

/-- C6 (witness): the amended theorem applied to the three-record input
(whose monthly buckets are January, February, March 2024) and to a
concrete record of `ClustersAnalysis.processedData`. -/
theorem c6_timeSeries_witness :
    ([⟨"Jan 2024", 1, daysFromCivil 2024 1 10⟩,
      ⟨"Feb 2024", 1, daysFromCivil 2024 2 5⟩,
      ⟨"Mar 2024", 1, daysFromCivil 2024 3 15⟩] : List NOP.Bucket).Pairwise
        (fun a b => a.date ≤ b.date) ∧
    (CA.Derived.mk (Ex.mkRec "S1" "N" "M1" "Q" "Sub" "01/05/24")
        (DR.parsedDate "01/05/24") (CA.financialYear "01/05/24")).parsedDate ≠ none := by
  constructor
  · exact c6_timeSeries_amended.1 Ex.c7data allState4 .monthly _ (by decide)
  · exact c6_timeSeries_amended.2 [Ex.mkRec "S1" "N" "M1" "Q" "Sub" "01/05/24"]
      allState4 _ (by decide)

/-! ## Claim C7 — trend analysis -/

/-- C7 (counterexample): on three valid-date records in
non-chronological input order, `NewOverviewPanel.trendAnalysis` (midpoint
taken over the *unsorted* filtered records) reports meta label "B" as
increasing, while the claimed algorithm (midpoint over the
chronologically sorted records) reports "B" as decreasing. -/
theorem c7_trend_counterexample :
    (NOP.trendAnalysis (NOP.processedData Ex.c7data allState4) .monthly).map
      (fun r => (r.increasing.map (·.cluster), r.decreasing.map (·.cluster))) =
      some (["B"], []) ∧
    ((Spec.trendDeltas (NOP.processedData Ex.c7data allState4)).1.map (·.cluster),
     (Spec.trendDeltas (NOP.processedData Ex.c7data allState4)).2.map (·.cluster)) =
      ([], ["B"]) := by
  decide

/-- C7 (amended): whenever `NewOverviewPanel.trendAnalysis` returns a
result, the degenerate `< 2`-buckets case yields the neutral empty
result; otherwise `increasing` (resp. `decreasing`) holds only strictly
positive (negative) changes, is capped at 3, is sorted by descending
(ascending) change, and every reported delta counts the records at or
before versus strictly after the date of the record at the midpoint
index of the filtered records *in their original input order*
(`midRecordDate`), not of a chronologically sorted copy. -/
theorem c7_trend_amended (data : List ReviewData) (st : FilterState4) (p : PeriodType)
    (res : NOP.TrendResult)
    (h : NOP.trendAnalysis (NOP.processedData data st) p = some res) :
    (∀ ts, NOP.timeSeriesFull (NOP.processedData data st) p = some ts →
        ts.length < 2 → res = ⟨[], [], none⟩) ∧
    (∀ t ∈ res.increasing, 0 < t.change) ∧
    res.increasing.length ≤ 3 ∧
    res.increasing.Pairwise (fun a b => b.change ≤ a.change) ∧
    (∀ t ∈ res.decreasing, t.change < 0) ∧
    res.decreasing.length ≤ 3 ∧
    res.decreasing.Pairwise (fun a b => a.change ≤ b.change) ∧
    (∀ t ∈ res.increasing ++ res.decreasing,
        t.firstHalf = (NOP.processedData data st).countP
          (fun d => d.llmMetaLabel == t.cluster &&
            jsDateLe d.dateObj (NOP.midRecordDate (NOP.processedData data st))) ∧
        t.secondHalf = (NOP.processedData data st).countP
          (fun d => d.llmMetaLabel == t.cluster &&
            jsDateGt d.dateObj (NOP.midRecordDate (NOP.processedData data st))) ∧
        t.change = (t.secondHalf : Int) - (t.firstHalf : Int)) := by
  unfold NOP.trendAnalysis at h
  split at h
  next => exact absurd h (by simp)
  next ts heq =>
    split at h
    next hlen =>
      replace h := (Option.some.inj h).symm
      subst h
      refine ⟨fun _ _ _ => rfl, ?_, ?_, ?_, ?_, ?_, ?_, ?_⟩ <;> simp
    next hlen =>
      replace h := (Option.some.inj h).symm
      subst h
      have hmemTrend : ∀ t ∈ (jsSetDedup ((NOP.processedData data st).map
            (·.llmMetaLabel))).map (fun cluster =>
              NOP.Trend.mk cluster
                (((((NOP.processedData data st).filter
                      (fun d => d.llmMetaLabel == cluster)).filter
                      (fun d => jsDateGt d.dateObj
                        (NOP.midRecordDate (NOP.processedData data st)))).length : Int) -
                  ((((NOP.processedData data st).filter
                      (fun d => d.llmMetaLabel == cluster)).filter
                      (fun d => jsDateLe d.dateObj
                        (NOP.midRecordDate (NOP.processedData data st)))).length : Int))
                (((NOP.processedData data st).filter
                    (fun d => d.llmMetaLabel == cluster)).filter
                    (fun d => jsDateLe d.dateObj
                      (NOP.midRecordDate (NOP.processedData data st)))).length
                (((NOP.processedData data st).filter
                    (fun d => d.llmMetaLabel == cluster)).filter
                    (fun d => jsDateGt d.dateObj
                      (NOP.midRecordDate (NOP.processedData data st)))).length),
          t.firstHalf = (NOP.processedData data st).countP
            (fun d => d.llmMetaLabel == t.cluster &&
              jsDateLe d.dateObj (NOP.midRecordDate (NOP.processedData data st))) ∧
          t.secondHalf = (NOP.processedData data st).countP
            (fun d => d.llmMetaLabel == t.cluster &&
              jsDateGt d.dateObj (NOP.midRecordDate (NOP.processedData data st))) ∧
          t.change = (t.secondHalf : Int) - (t.firstHalf : Int) := by
        intro t ht
        rcases List.mem_map.mp ht with ⟨cluster, -, rfl⟩
        exact ⟨length_filter_filter_comm (fun d => d.llmMetaLabel == cluster)
            (fun d => jsDateLe d.dateObj (NOP.midRecordDate (NOP.processedData data st)))
            (NOP.processedData data st),
          length_filter_filter_comm (fun d => d.llmMetaLabel == cluster)
            (fun d => jsDateGt d.dateObj (NOP.midRecordDate (NOP.processedData data st)))
            (NOP.processedData data st), rfl⟩
      refine ⟨?_, ?_, ?_, ?_, ?_, ?_, ?_, ?_⟩
      · intro ts' hts' hl
        rw [heq] at hts'
        cases Option.some.inj hts'
        exact absurd hl hlen
      · intro t ht
        have := List.mem_filter.mp (mem_jsSortBy.mp (List.mem_of_mem_take ht))
        simpa using this.2
      · exact List.length_take_le 3 _
      · refine List.Pairwise.sublist (List.take_sublist 3 _) ?_
        exact (jsSortBy_pairwise
          (fun a b : NOP.Trend => some (b.change - a.change))
          (by intro a b c hab hbc; simp only [Option.getD_some] at *; omega)
          (by intro a b; simp only [Option.getD_some]; omega) _).imp
          (by intro a b hb; simp only [Option.getD_some] at hb; omega)
      · intro t ht
        have := List.mem_filter.mp (mem_jsSortBy.mp (List.mem_of_mem_take ht))
        simpa using this.2
      · exact List.length_take_le 3 _
      · refine List.Pairwise.sublist (List.take_sublist 3 _) ?_
        exact (jsSortBy_pairwise
          (fun a b : NOP.Trend => some (a.change - b.change))
          (by intro a b c hab hbc; simp only [Option.getD_some] at *; omega)
          (by intro a b; simp only [Option.getD_some]; omega) _).imp
          (by intro a b hb; simp only [Option.getD_some] at hb; omega)
      · intro t ht
        rcases List.mem_append.mp ht with ht | ht <;>
          exact hmemTrend t (List.mem_filter.mp (mem_jsSortBy.mp (List.mem_of_mem_take ht))).1

/-- C7 (witness): the amended theorem applied to the three-record
input. -/
theorem c7_trend_witness :
    (0 : Int) < (NOP.Trend.mk "B" 1 0 1).change := by
  have h := c7_trend_amended Ex.c7data allState4 .monthly
    ⟨[⟨"B", 1, 0, 1⟩], [], some "decreasing"⟩ (by decide)
  exact h.2.1 _ (by decide)

/-! ## Claim C8 — pagination -/

/-- C8: `totalPages` is the ceiling `⌈length / pageSize⌉` (0 for an
empty list), and the concatenation of pages 1 through `totalPages` at a
fixed positive page size is exactly the underlying list, each record
appearing exactly once. -/
theorem c8_pagination (l : List DR.Derived) (pageSize : Nat) (h : 0 < pageSize) :
    DR.totalPages l pageSize = (l.length + pageSize - 1) / pageSize ∧
    (l = [] → DR.totalPages l pageSize = 0) ∧
    ((List.range (DR.totalPages l pageSize)).map
        (fun i => DR.paginatedData l (i + 1) pageSize)).flatten = l := by
  have hceil : DR.totalPages l pageSize = (l.length + pageSize - 1) / pageSize :=
    ceil_div_nat _ _ h
  refine ⟨hceil, ?_, ?_⟩
  · intro hl
    subst hl
    simp [DR.totalPages]
  · have hcover : l.length ≤ DR.totalPages l pageSize * pageSize := by
      rw [hceil]
      have hdm := Nat.div_add_mod (l.length + pageSize - 1) pageSize
      have hm := Nat.mod_lt (l.length + pageSize - 1) h
      rcases Nat.eq_zero_or_pos l.length with h0 | h0
      · simp [h0]
      · rw [Nat.mul_comm]
        omega
    have hpage : (fun i => DR.paginatedData l (i + 1) pageSize) =
        fun i => (l.drop (i * pageSize)).take pageSize := by
      funext i
      simp [DR.paginatedData, Nat.add_sub_cancel]
    rw [hpage]
    exact join_pages pageSize _ l hcover

/-- C8 (witness): the theorem applied to the concrete two-record
filtered list with page size 1. -/
theorem c8_pagination_witness :
    DR.totalPages (DR.processedData Ex.c1data allState6 "" .date .desc) 1 = 2 ∧
    ((List.range 2).map (fun i =>
        DR.paginatedData (DR.processedData Ex.c1data allState6 "" .date .desc) (i + 1) 1)).flatten =
      DR.processedData Ex.c1data allState6 "" .date .desc := by
  have h := c8_pagination (DR.processedData Ex.c1data allState6 "" .date .desc) 1 (by decide)
  have h2 : DR.totalPages (DR.processedData Ex.c1data allState6 "" .date .desc) 1 = 2 := by
    rw [h.1]
    decide
  refine ⟨h2, ?_⟩
  have h3 := h.2.2
  rw [h2] at h3
  exact h3

/-! ## Claim C10 — series truncation -/

/-- C10 (counterexample): thirteen weekly buckets with the oldest week's
record appearing last: `clusterTrendsData`'s `.slice(-12)` drops the
entry in position 0 of its (label-parse, here insertion) order — the
week of Sun 12 Jan 2025 — while the chronologically *oldest* bucket
(week of Sun 05 Jan 2025) survives, so the kept entries are not the 12
most recent. -/
theorem c10_truncation_counterexample :
    ((CA.clusterTrendsData (CA.processedData Ex.c10data allState4) .weekly).map
      (·.period)).length = 12 ∧
    "Week of Sun Jan 05 2025" ∈
      ((CA.clusterTrendsData (CA.processedData Ex.c10data allState4) .weekly).map (·.period)) ∧
    "Week of Sun Jan 12 2025" ∉
      ((CA.clusterTrendsData (CA.processedData Ex.c10data allState4) .weekly).map (·.period)) ∧
    daysFromCivil 2025 1 5 < daysFromCivil 2025 1 12 := by
  decide

/-- C10 (amended): both series are truncated to a fixed-length suffix of
their sorted bucket arrays — the regional series keeps the last 20
entries, the cluster series the last 12 — where "last" refers to the
code's label-re-parse order (chronological for daily and monthly labels,
first-occurrence order for weekly labels, which do not re-parse). -/
theorem c10_truncation_amended (pd : List CA.Derived) (p : PeriodType) :
    (P3.timeSeriesData pd p).length ≤ 20 ∧
    (P3.timeSeriesData pd p) <:+ (P3.timeSeriesFull pd p) ∧
    (CA.clusterTrendsData pd p).length ≤ 12 ∧
    (CA.clusterTrendsData pd p) <:+ (CA.clusterTrendsFull pd p) := by
  refine ⟨?_, ?_, ?_, ?_⟩
  · unfold P3.timeSeriesData
    split
    · simp
    · rw [List.length_drop]; omega
  · unfold P3.timeSeriesData
    split
    · exact List.nil_suffix
    · exact List.drop_suffix _ _
  · unfold CA.clusterTrendsData
    split
    · simp
    · rw [List.length_drop]; omega
  · unfold CA.clusterTrendsData
    split
    · exact List.nil_suffix
    · exact List.drop_suffix _ _

/-! ## Claim C9 — ingestion validation -/

/-- C9 (counterexample): under the minimal schema, a row with non-empty
City and Reviews but an *empty* `LLM_Cluster_Label` is admitted into the
dataset, contradicting the claim that a non-empty cluster label is
required in both schemas. -/
theorem c9_validation_counterexample :
    Ingest.ingestMinimal Ex.c9headers [Ex.c9row] = [⟨"X", "good", "", ""⟩] ∧
    (⟨"X", "good", "", ""⟩ : Review01).llmClusterLabel = "" := by
  decide

/-- C9 (amended): the extended-schema ingestion admits exactly the rows
with non-empty Store Name, Remark and LLM_Cluster_Label, so every
admitted record satisfies all three; the minimal-schema ingestion checks
only City and Reviews. -/
theorem c9_validation_amended :
    (∀ (headers : List String) (rows : List (List String)),
      ∀ r ∈ Ingest.ingestExtended headers rows,
        r.storeName ≠ "" ∧ r.remark ≠ "" ∧ r.llmClusterLabel ≠ "") ∧
    (∀ (headers : List String) (rows : List (List String)),
      ∀ r ∈ Ingest.ingestMinimal headers rows, r.city ≠ "" ∧ r.reviews ≠ "") := by
  constructor
  · intro headers rows r hr
    rcases List.mem_filter.mp hr with ⟨-, hp⟩
    simp only [Bool.and_eq_true, decide_eq_true_eq] at hp
    exact ⟨hp.1.1, hp.1.2, hp.2⟩
  · intro headers rows r hr
    rcases List.mem_filter.mp hr with ⟨-, hp⟩
    simp only [Bool.and_eq_true, decide_eq_true_eq] at hp
    exact hp

/-- C9 (witness): the amended theorem applied to a concrete admitted
row of each schema. -/
theorem c9_validation_witness :
    ((⟨"1", "S", "R", "", "rem", "", "", "", "", "cl", ""⟩ : ReviewData).storeName ≠ "" ∧
      (⟨"1", "S", "R", "", "rem", "", "", "", "", "cl", ""⟩ : ReviewData).remark ≠ "" ∧
      (⟨"1", "S", "R", "", "rem", "", "", "", "", "cl", ""⟩ : ReviewData).llmClusterLabel ≠ "") ∧
    ((⟨"X", "good", "", ""⟩ : Review01).city ≠ "" ∧
      (⟨"X", "good", "", ""⟩ : Review01).reviews ≠ "") := by
  constructor
  · exact c9_validation_amended.1
      ["S.No", "Store Name", "Region", "Remark", "LLM_Cluster_Label"]
      [["1", "S", "R", "rem", "cl"]] _ (by decide)
  · exact c9_validation_amended.2 Ex.c9headers [Ex.c9row] _ (by decide)

end Echo
